import Mathlib

/-!
Shallow embedding of the `gh-fork-sync` GitHub CLI extension (`main.go`).

Go strings are modelled as `List Char`; the Go standard-library string
helpers used by the program (`strings.HasPrefix`, `strings.TrimPrefix`,
`strings.SplitN` with limit 2, `strings.Contains`, `strings.TrimSuffix`)
are reimplemented below with their Go semantics.  External collaborators
(the git subprocess, the GitHub REST API, `safeexec.LookPath`) are
modelled by an oracle structure `Env`; `mainRun` mirrors `main` and
returns the observable trace: git invocations, API call count, printed
lines and exit code.
-/

/-- Go strings, modelled as lists of characters. -/
abbrev Str := List Char

/-- Embed a Lean string literal as a Go string. -/
def str (s : String) : Str := s.data

/-- Go `strings.HasPrefix(s, pre)`, with the candidate PREFIX argument first:
`goStartsWith pre s` is true when `s` starts with `pre`. -/
def goStartsWith : Str → Str → Bool
  | [], _ => true
  | _ :: _, [] => false
  | p :: ps, c :: cs => p == c && goStartsWith ps cs

/-- Go `strings.TrimPrefix(s, pre)` (candidate first): drops `pre` from the
front of `s` when present, otherwise returns `s` unchanged. -/
def goTrimStart (pre s : Str) : Str :=
  if goStartsWith pre s then s.drop pre.length else s

/-- Go `strings.HasSuffix(s, suf)` (candidate SUFFIX argument first). -/
def goEndsWith (suf s : Str) : Bool :=
  goStartsWith suf.reverse s.reverse

/-- Go `strings.TrimSuffix(s, suf)` (candidate first): drops `suf` from the
end of `s` when present, otherwise returns `s` unchanged. -/
def goTrimSuffix (suf s : Str) : Str :=
  if goEndsWith suf s then s.take (s.length - suf.length) else s

/-- Split `s` at the FIRST occurrence of `sub`: `some (before, after)` when
`sub` occurs in `s`, `none` otherwise.  This is the search underlying Go
`strings.Index` / `strings.Contains` / `strings.SplitN`. -/
def goFindSub (sub : Str) : Str → Option (Str × Str)
  | [] => if goStartsWith sub [] then some ([], []) else none
  | c :: s =>
    if goStartsWith sub (c :: s) then some ([], (c :: s).drop sub.length)
    else (goFindSub sub s).map fun q => (c :: q.1, q.2)

/-- Go `strings.Contains(s, sub)` (needle first). -/
def goContains (sub s : Str) : Bool :=
  (goFindSub sub s).isSome

/-- Go `strings.SplitN(s, sep, 2)` (separator first): `[before, after]` at the
first occurrence of `sep`, or the one-element list `[s]` when `sep` does not
occur (matching Go for the non-empty separators used by the program). -/
def goSplitN2 (sep s : Str) : List Str :=
  match goFindSub sep s with
  | some (b, a) => [b, a]
  | none => [s]

/-! ### The URL parser (`GetOriginRepo`, main.go lines 81-103) -/

/-- The SSH-shape marker `"git@github.com:"` of main.go line 85. -/
def sshPre : Str := str "git@github.com:"

/-- The HTTPS-shape marker `"github.com/"` of main.go line 89. -/
def hostSlash : Str := str "github.com/"

/-- The owner/repository separator `"/"`. -/
def slash : Str := ['/']

/-- The optional clone-URL suffix `".git"`. -/
def dotGit : Str := str ".git"

/-- The canonical HTTPS-shape URL head `"https://github.com/"` (an instance
of the `Contains "github.com/"` branch). -/
def httpsPre : Str := str "https://github.com/"

/-- The two parse failures of `GetOriginRepo`:
`unsupportedFormat` is Go line 94 (`"unsupported origin URL format: %s"`),
`malformedURL` is Go line 98 (`"failed to parse owner/repo from URL: %s"`).
Both carry the offending URL. -/
inductive UrlError where
  | unsupportedFormat (url : Str)
  | malformedURL (url : Str)
deriving DecidableEq

/-- Result of the pure URL-parsing logic.  `panicked` marks a would-be Go
runtime panic (out-of-bounds slice index); we prove it unreachable. -/
inductive ParseResult where
  | ok (owner repo : Str)
  | err (e : UrlError)
  | panicked
deriving DecidableEq

/-- Outcome of computing the `parts` variable of main.go lines 84-95. -/
inductive PartsOutcome where
  | parts (ps : List Str)
  | unsupported
  | indexPanic
deriving DecidableEq

/-- main.go lines 84-95: compute `parts`.  The SSH branch trims the prefix and
splits on the first `/`; the HTTPS branch splits on `"github.com/"`, indexes
element `[1]` (modelled by `List.get?` so a Go index panic is visible), and
splits that on the first `/`; any other shape is unsupported. -/
def partsOf (url : Str) : PartsOutcome :=
  if goStartsWith sshPre url then
    .parts (goSplitN2 slash (goTrimStart sshPre url))
  else if goContains hostSlash url then
    match (goSplitN2 hostSlash url).get? 1 with
    | some path => .parts (goSplitN2 slash path)
    | none => .indexPanic
  else .unsupported

/-- main.go lines 97-103: the common continuation on the computed `parts`.
Fewer than two parts is `malformedURL`; otherwise `owner = parts[0]` and
`repo = TrimSuffix(parts[1], ".git")` (indexing modelled by `List.get?`). -/
def partsToResult (url : Str) (ps : List Str) : ParseResult :=
  if ps.length < 2 then .err (.malformedURL url)
  else
    match ps.get? 0, ps.get? 1 with
    | some o, some r => .ok o (goTrimSuffix dotGit r)
    | _, _ => .panicked

/-- main.go lines 84-103: the pure part of `GetOriginRepo` applied to the
(already whitespace-trimmed) origin URL. -/
def parseRemoteURL (url : Str) : ParseResult :=
  match partsOf url with
  | .indexPanic => .panicked
  | .unsupported => .err (.unsupportedFormat url)
  | .parts ps => partsToResult url ps

/-! ### Data model (main.go lines 13-36) -/

/-- Structure `AppConfig` (main.go lines 13-20): the resolved command-line
configuration. -/
structure AppConfig where
  UpstreamBranch : Str
  OriginBranch : Str
  Rebase : Bool
  ForcePush : Bool
  DryRun : Bool
deriving DecidableEq

/-- Structure `RepoInfo` (main.go lines 22-30), with the nested `Parent` struct
flattened into two fields. -/
structure RepoInfo where
  FullName : Str
  Fork : Bool
  ParentFullName : Str
  ParentCloneURL : Str
deriving DecidableEq

/-- Structure `GitCommand` (main.go lines 32-36): argument vector plus human-readable
description used in error wrapping. -/
structure GitCommand where
  Args : List Str
  Description : Str
deriving DecidableEq

/-! ### Pure helpers of main.go -/

/-- Function `validateFork` (main.go lines 116-122): `some errorMessage` when the
repository is not a fork (`fmt.Errorf("repository %s isn\x27t a fork", ...)`),
`none` on success. -/
def validateFork (info : RepoInfo) : Option Str :=
  if !info.Fork then
    some (str "repository " ++ info.FullName ++ str " isn\x27t a fork")
  else
    none

/-- Function `getSyncCommand` (main.go lines 133-153): base arguments
`[verb, "upstream"]`, with `"upstream/<branch>"` appended exactly when the
branch is non-empty; descriptions `"rebasing onto upstream"` /
`"merging upstream"`. -/
def getSyncCommand (config : AppConfig) (upstreamBranch : Str) : GitCommand :=
  if config.Rebase then
    let args := [str "rebase", str "upstream"]
    let args := if upstreamBranch = [] then args
      else args ++ [str "upstream/" ++ upstreamBranch]
    { Args := args, Description := str "rebasing onto upstream" }
  else
    let args := [str "merge", str "upstream"]
    let args := if upstreamBranch = [] then args
      else args ++ [str "upstream/" ++ upstreamBranch]
    { Args := args, Description := str "merging upstream" }

/-- The integration line of `printDryRun` (main.go lines 162-166): the branch
qualifier `upstream/<UpstreamBranch>` is printed unconditionally, even when
the branch is empty. -/
def dryIntegrationLine (config : AppConfig) : Str :=
  if config.Rebase then
    str "Would run: git rebase upstream/" ++ config.UpstreamBranch
  else
    str "Would run: git merge upstream/" ++ config.UpstreamBranch

/-- Function `printDryRun` (main.go lines 155-173), as the ordered list of printed
lines. -/
def printDryRunLines (config : AppConfig) (parentCloneURL : Str) : List Str :=
  [ str "Note: The following commands are examples. The actual upstream URL will be taken from your fork\x27s parent repository.",
    str "Dry run mode - commands that would be executed:",
    str "Would run: git remote add upstream " ++ parentCloneURL,
    str "Would run: git fetch upstream",
    dryIntegrationLine config,
    str "Would run: git "
      ++ (str "push" ++ (if config.ForcePush then str " -f" else []))
      ++ str " origin HEAD:" ++ config.OriginBranch ]

/-! ### The external-collaborator oracle and the command runner -/

/-- Outcome oracle for executing one git command: `none` means exit code 0;
`some (errText, output)` means failure with the native error text and the
captured combined output. -/
def GitExec := List Str → Option (Str × Str)

/-- The error-wrapping of `runGitCommand` (main.go line 128):
`fmt.Errorf("%s: %v\nOutput: %s", cmd.Description, err, output)`. -/
def wrapGitError (cmd : GitCommand) (errText output : Str) : Str :=
  cmd.Description ++ str ": " ++ errText ++ str "\nOutput: " ++ output

/-- Function `runGitCommand` (main.go lines 124-131): `none` on success, otherwise the
wrapped error message. -/
def runGitCommand (gexec : GitExec) (cmd : GitCommand) : Option Str :=
  match gexec cmd.Args with
  | none => none
  | some (e, out) => some (wrapGitError cmd e out)

/-- Oracle for every external collaborator `main` touches, in order of use:
the REST-client constructor, the (whitespace-trimmed) output of
`git remote get-url origin`, the `repos/{owner}/{repo}` lookup,
`safeexec.LookPath("git")`, and the git subprocess executor. -/
structure Env where
  clientOk : Bool
  clientErr : Str
  originUrl : Except Str Str
  repoLookup : Str → Str → Except Str RepoInfo
  gitBin : Except Str Str
  gitRun : GitExec

/-- Result of `GetOriginRepo` (main.go lines 72-104) for a given oracle. -/
inductive OriginRepoResult where
  | ok (owner repo : Str)
  | err (msg : Str)
  | panicked
deriving DecidableEq

/-- Function `GetOriginRepo` (main.go lines 72-104): query the origin URL, then apply
the parsing logic; error messages match the `fmt.Errorf` formats of lines
78, 94 and 98. -/
def GetOriginRepo (env : Env) : OriginRepoResult :=
  match env.originUrl with
  | .error e => .err (str "failed to get origin remote: " ++ e)
  | .ok url =>
    match parseRemoteURL url with
    | .ok o r => .ok o r
    | .err (.unsupportedFormat u) =>
        .err (str "unsupported origin URL format: " ++ u)
    | .err (.malformedURL u) =>
        .err (str "failed to parse owner/repo from URL: " ++ u)
    | .panicked => .panicked

/-! ### The orchestrator (`main`, main.go lines 175-276) -/

/-- The observable behaviour of one program run: every git invocation (in
order), the number of hosting-API metadata calls, every printed line (in
order), the process exit code, and whether a modelled Go panic occurred.
`main` always returns normally, so `exitCode` is always `0`. -/
structure RunResult where
  gitCalls : List (List Str)
  apiCalls : Nat
  lines : List Str
  exitCode : Nat
  panicked : Bool
deriving DecidableEq

/-- Arguments of the `git remote get-url origin` call issued inside
`GetOriginRepo` (main.go line 75). -/
def getUrlArgs : List Str := [str "remote", str "get-url", str "origin"]

/-- The remote-add command of main.go lines 221-224. -/
def addUpstreamCmd (cloneURL : Str) : GitCommand :=
  { Args := [str "remote", str "add", str "upstream", cloneURL],
    Description := str "adding upstream remote" }

/-- Arguments of the fetch command of main.go lines 233-236. -/
def fetchArgs : List Str := [str "fetch", str "upstream"]

/-- The fetch command of main.go lines 233-236. -/
def fetchCmd : GitCommand :=
  { Args := fetchArgs, Description := str "fetching upstream" }

/-- The push arguments of main.go lines 261-265: `"push"`, then `"-f"`
exactly when `ForcePush` is set, then `"origin"`, then
`"HEAD:<OriginBranch>"`. -/
def pushArgsOf (config : AppConfig) : List Str :=
  [str "push"] ++ (if config.ForcePush then [str "-f"] else [])
    ++ [str "origin", str "HEAD:" ++ config.OriginBranch]

/-- The push command of main.go lines 267-270. -/
def pushCmd (config : AppConfig) : GitCommand :=
  { Args := pushArgsOf config,
    Description := str "pushing to origin/" ++ config.OriginBranch }

/-- The error line `fmt.Printf("✗ Error while %v\n", err)` used by the four
git steps of `main`. -/
def errWhileLine (msg : Str) : Str := str "✗ Error while " ++ msg

/-- The success line printed after integration (main.go lines 254-258). -/
def syncOkLine (config : AppConfig) : Str :=
  if config.Rebase then str "✓ Rebased onto upstream/" ++ config.UpstreamBranch
  else str "✓ Merged upstream/" ++ config.UpstreamBranch

/-- The strategy-specific abort hint (main.go lines 247-251). -/
def abortHintLine (config : AppConfig) : Str :=
  if config.Rebase then str "To abort the rebase, run: git rebase --abort"
  else str "To abort the merge, run: git merge --abort"

/-- The error text swallowed at the remote-add step (main.go line 226). -/
def alreadyExistsText : Str := str "remote upstream already exists"

/-- The placeholder parent URL used for dry runs (main.go line 181). -/
def placeholderURL : Str := str "https://github.com/upstream/repo.git"

/-- Push step (main.go lines 260-275): run the push command; on failure print
the wrapped error, on success print the confirmation. -/
def stagePush (config : AppConfig) (env : Env)
    (calls : List (List Str)) (lines : List Str) : RunResult :=
  let cmd := pushCmd config
  match runGitCommand env.gitRun cmd with
  | some msg =>
      ⟨calls ++ [cmd.Args], 1, lines ++ [errWhileLine msg], 0, false⟩
  | none =>
      ⟨calls ++ [cmd.Args], 1,
        lines ++ [str "✓ Pushed to origin/" ++ config.OriginBranch], 0, false⟩

/-- Integration step (main.go lines 243-258): build the sync command, run it;
on failure print the wrapped error and the strategy-specific abort hint and
stop; on success print the confirmation and push. -/
def stageSync (config : AppConfig) (env : Env)
    (calls : List (List Str)) (lines : List Str) : RunResult :=
  let cmd := getSyncCommand config config.UpstreamBranch
  match runGitCommand env.gitRun cmd with
  | some msg =>
      ⟨calls ++ [cmd.Args], 1,
        lines ++ [errWhileLine msg, abortHintLine config], 0, false⟩
  | none =>
      stagePush config env (calls ++ [cmd.Args]) (lines ++ [syncOkLine config])

/-- Fetch step (main.go lines 232-241): run `git fetch upstream`; any failure
prints the wrapped error and stops; success prints the confirmation and
proceeds to integration. -/
def stageFetch (config : AppConfig) (env : Env)
    (calls : List (List Str)) (lines : List Str) : RunResult :=
  match runGitCommand env.gitRun fetchCmd with
  | some msg => ⟨calls ++ [fetchArgs], 1, lines ++ [errWhileLine msg], 0, false⟩
  | none =>
      stageSync config env (calls ++ [fetchArgs])
        (lines ++ [str "✓ Fetched upstream"])

/-- Remote-add step (main.go lines 220-230): run the remote-add command; a
failure whose wrapped message contains `"remote upstream already exists"` is
swallowed (nothing printed) and the run proceeds to fetch, exactly like
success; any other failure prints the wrapped error and stops. -/
def stageAdd (config : AppConfig) (env : Env) (cloneURL : Str)
    (calls : List (List Str)) (lines : List Str) : RunResult :=
  let cmd := addUpstreamCmd cloneURL
  match runGitCommand env.gitRun cmd with
  | some msg =>
      if goContains alreadyExistsText msg then
        stageFetch config env (calls ++ [cmd.Args]) lines
      else ⟨calls ++ [cmd.Args], 1, lines ++ [errWhileLine msg], 0, false⟩
  | none => stageFetch config env (calls ++ [cmd.Args]) lines

/-- Function `main` (main.go lines 175-276): dry-run short-circuit, REST-client
construction, origin resolution, metadata lookup, fork validation, git
lookup, then the remote-add / fetch / integrate / push pipeline. -/
def mainRun (config : AppConfig) (env : Env) : RunResult :=
  if config.DryRun then
    ⟨[], 0, printDryRunLines config placeholderURL, 0, false⟩
  else if !env.clientOk then
    ⟨[], 0, [str "✗ Error: " ++ env.clientErr], 0, false⟩
  else
    match GetOriginRepo env with
    | .panicked => ⟨[getUrlArgs], 0, [], 0, true⟩
    | .err msg => ⟨[getUrlArgs], 0, [str "✗ Error: " ++ msg], 0, false⟩
    | .ok owner repo =>
      match env.repoLookup owner repo with
      | .error e =>
          ⟨[getUrlArgs], 1,
            [str "✗ Error: failed to get repo info: " ++ e], 0, false⟩
      | .ok info =>
        match validateFork info with
        | some msg => ⟨[getUrlArgs], 1, [str "✗ " ++ msg], 0, false⟩
        | none =>
          let detected := str "✓ Detected fork: " ++ info.FullName
            ++ str " (parent: " ++ info.ParentFullName ++ str ")"
          match env.gitBin with
          | .error e =>
              ⟨[getUrlArgs], 1,
                [detected, str "✗ Error while looking for git: " ++ e],
                0, false⟩
          | .ok _ =>
              stageAdd config env info.ParentCloneURL [getUrlArgs] [detected]

/-! ### Sample concrete data for sanity checks and witnesses -/

/-- A fork whose parent clone URL is `https://github.com/up/stream.git`. -/
def sampleInfo : RepoInfo :=
  { FullName := str "owner/repo", Fork := true,
    ParentFullName := str "up/stream",
    ParentCloneURL := str "https://github.com/up/stream.git" }

/-- An oracle on which every collaborator succeeds. -/
def okEnv : Env :=
  { clientOk := true, clientErr := [],
    originUrl := .ok (str "git@github.com:owner/repo.git"),
    repoLookup := fun _ _ => .ok sampleInfo,
    gitBin := .ok (str "/usr/bin/git"),
    gitRun := fun _ => none }

/-- The configuration of the end-to-end scenario:
`{rebase:false, forcePush:false, originBranch:"main", upstreamBranch:"main",
dryRun:false}`. -/
def mergeMainConfig : AppConfig :=
  { UpstreamBranch := str "main", OriginBranch := str "main",
    Rebase := false, ForcePush := false, DryRun := false }

/-- An oracle that fails only the remote-add step, with an error text whose
wrapped message contains `"remote upstream already exists"`. -/
def addFailEnv : Env :=
  { okEnv with gitRun := fun args =>
      if args = [str "remote", str "add", str "upstream",
          str "https://github.com/up/stream.git"] then
        (some (str "exit status 3",
          str "error: remote upstream already exists"))
      else none }

/-- An oracle that fails only the remote-add step, with an unrelated error
text. -/
def addHardFailEnv : Env :=
  { okEnv with gitRun := fun args =>
      if args = [str "remote", str "add", str "upstream",
          str "https://github.com/up/stream.git"] then
        (some (str "exit status 128", str "fatal: not a git repository"))
      else none }

/-- An oracle that fails only the `merge upstream upstream/main` integration
step. -/
def syncFailEnv : Env :=
  { okEnv with gitRun := fun args =>
      if args = [str "merge", str "upstream", str "upstream/main"] then
        (some (str "exit status 1", str "CONFLICT (content): Merge conflict"))
      else none }

/-! ### Dry-run projection versus the real integration command (for the
refinement comparison) -/

/-- The verb selected by the integration strategy (shared by the dry-run
printer, main.go lines 162-166, and `getSyncCommand`). -/
def strategyVerb (config : AppConfig) : Str :=
  if config.Rebase then str "rebase" else str "merge"

/-- Join an argument vector with single spaces, as a shell-style command
line. -/
def joinSpace : List Str → Str
  | [] => []
  | [x] => x
  | x :: y :: t => x ++ ' ' :: joinSpace (y :: t)

/-- The integration command line the dry-run projector announces: the text
of `dryIntegrationLine` after the `"Would run: "` marker. -/
def projectedIntegrationLine (config : AppConfig) : Str :=
  str "git " ++ strategyVerb config ++ str " upstream/" ++ config.UpstreamBranch

/-- The integration command line a real (non-dry) run executes: `git`
followed by the arguments built by `getSyncCommand` from the same
configuration. -/
def realIntegrationLine (config : AppConfig) : Str :=
  str "git " ++ joinSpace (getSyncCommand config config.UpstreamBranch).Args

/-! ### String lemmas -/

example : str "ab" = ['a', 'b'] := rfl

example : parseRemoteURL (str "https://github.com/owner/repo.git")
    = .ok (str "owner") (str "repo") := by decide

example : parseRemoteURL (str "git@github.com:owner/repo.git")
    = .ok (str "owner") (str "repo") := by decide

example : parseRemoteURL (str "ftp://example.com/x")
    = .err (.unsupportedFormat (str "ftp://example.com/x")) := by decide

example : parseRemoteURL (str "git@github.com:owner/")
    = .ok (str "owner") [] := by decide

example : parseRemoteURL (str "https://github.com/onlyowner")
    = .err (.malformedURL (str "https://github.com/onlyowner")) := by decide

example :
    (mainRun mergeMainConfig okEnv).gitCalls =
      [ getUrlArgs,
        [str "remote", str "add", str "upstream",
          str "https://github.com/up/stream.git"],
        [str "fetch", str "upstream"],
        [str "merge", str "upstream", str "upstream/main"],
        [str "push", str "origin", str "HEAD:main"] ] := by decide

example : (mainRun { mergeMainConfig with DryRun := true } okEnv).gitCalls = []
    := by decide


theorem goStartsWith_self_append (p t : Str) : goStartsWith p (p ++ t) = true := by
  induction p with
  | nil => rfl
  | cons c cs ih => simp [goStartsWith, ih]

theorem goStartsWith_cons_ne {p c : Char} (ps cs : Str) (h : ¬ p = c) :
    goStartsWith (p :: ps) (c :: cs) = false := by
  simp [goStartsWith, h]

theorem take_len_append (a b : Str) : (a ++ b).take a.length = a := by
  induction a with
  | nil => rfl
  | cons c cs ih => simp [ih]

theorem drop_len_append (a b : Str) : (a ++ b).drop a.length = b := by
  induction a with
  | nil => rfl
  | cons c cs ih => simp [ih]

theorem goTrimStart_self_append (p t : Str) : goTrimStart p (p ++ t) = t := by
  simp [goTrimStart, goStartsWith_self_append, drop_len_append]

theorem goFindSub_of_startsWith {sub s : Str} (h : goStartsWith sub s = true) :
    goFindSub sub s = some ([], s.drop sub.length) := by
  cases s with
  | nil =>
    simp only [goFindSub, h, if_true]
    cases sub with
    | nil => rfl
    | cons c cs => simp [goStartsWith] at h
  | cons c cs => simp [goFindSub, h]

theorem goFindSub_self_append (sub t : Str) :
    goFindSub sub (sub ++ t) = some ([], t) := by
  rw [goFindSub_of_startsWith (goStartsWith_self_append sub t),
    drop_len_append]

theorem goFindSub_cons_of_not {sub : Str} {c : Char} {s : Str}
    (h : goStartsWith sub (c :: s) = false) :
    goFindSub sub (c :: s) = (goFindSub sub s).map fun q => (c :: q.1, q.2) := by
  simp [goFindSub, h]

theorem goFindSub_append_of_notMem (a : Char) (sub pre t : Str) (h : a ∉ pre) :
    goFindSub (a :: sub) (pre ++ t)
      = (goFindSub (a :: sub) t).map fun q => (pre ++ q.1, q.2) := by
  induction pre with
  | nil =>
    cases hf : goFindSub (a :: sub) t <;> simp [hf]
  | cons c cs ih =>
    have hne : ¬ a = c := fun he => h (by simp [he])
    have hcs : a ∉ cs := fun hm => h (List.mem_cons_of_mem c hm)
    rw [List.cons_append, goFindSub_cons_of_not (goStartsWith_cons_ne _ _ hne),
      ih hcs]
    cases hf : goFindSub (a :: sub) t <;> simp [hf]

theorem goFindSub_slash (o r : Str) (h : ('/' : Char) ∉ o) :
    goFindSub slash (o ++ '/' :: r) = some (o, r) := by
  have h1 : goFindSub slash ('/' :: r) = some ([], r) :=
    goFindSub_self_append slash r
  have h2 := goFindSub_append_of_notMem '/' [] o ('/' :: r) h
  simp only [slash] at h1 h2 ⊢
  rw [h2, h1]
  simp

theorem goContains_append_self (sub a b : Str) :
    goContains sub (a ++ (sub ++ b)) = true := by
  induction a with
  | nil =>
    simp [goContains, goFindSub_self_append]
  | cons c cs ih =>
    simp only [goContains, List.cons_append]
    by_cases h : goStartsWith sub (c :: (cs ++ (sub ++ b))) = true
    · rw [goFindSub_of_startsWith h]
      rfl
    · rw [goFindSub_cons_of_not (Bool.of_not_eq_true h)]
      simp only [goContains] at ih
      cases hf : goFindSub sub (cs ++ (sub ++ b)) with
      | none => rw [hf] at ih; simp at ih
      | some q => simp

theorem goTrimSuffix_append_self (suf r : Str) :
    goTrimSuffix suf (r ++ suf) = r := by
  have hend : goEndsWith suf (r ++ suf) = true := by
    rw [goEndsWith, List.reverse_append]
    exact goStartsWith_self_append _ _
  rw [goTrimSuffix, hend]
  simp only [if_true, List.length_append, Nat.add_sub_cancel]
  exact take_len_append r suf

theorem goTrimSuffix_of_not {suf r : Str} (h : goEndsWith suf r = false) :
    goTrimSuffix suf r = r := by
  rw [goTrimSuffix, h]
  rfl

theorem exists_cons_cons_of_two_le {l : List Str} (h : 2 ≤ l.length) :
    ∃ x y t, l = x :: y :: t := by
  cases l with
  | nil => simp at h
  | cons x l' =>
    cases l' with
    | nil => simp at h
    | cons y t => exact ⟨x, y, t, rfl⟩

/-! ### Claim theorems -/

/-- C3: `buildSyncCommand` (source: `getSyncCommand`) is deterministic and
produces exactly `["rebase","upstream"]` / `["rebase","upstream","upstream/<b>"]`
/ `["merge","upstream"]` / `["merge","upstream","upstream/<b>"]` according to
the strategy flag and the emptiness of the branch, with descriptions
`"rebasing onto upstream"` / `"merging upstream"`. -/
theorem getSyncCommand_cases :
    (∀ (c₁ c₂ : AppConfig) (b₁ b₂ : Str), c₁ = c₂ → b₁ = b₂ →
      getSyncCommand c₁ b₁ = getSyncCommand c₂ b₂)
    ∧ (∀ (config : AppConfig) (b : Str), config.Rebase = true → b = [] →
      getSyncCommand config b
        = ⟨[str "rebase", str "upstream"], str "rebasing onto upstream"⟩)
    ∧ (∀ (config : AppConfig) (b : Str), config.Rebase = true → b ≠ [] →
      getSyncCommand config b
        = ⟨[str "rebase", str "upstream", str "upstream/" ++ b],
            str "rebasing onto upstream"⟩)
    ∧ (∀ (config : AppConfig) (b : Str), config.Rebase = false → b = [] →
      getSyncCommand config b
        = ⟨[str "merge", str "upstream"], str "merging upstream"⟩)
    ∧ (∀ (config : AppConfig) (b : Str), config.Rebase = false → b ≠ [] →
      getSyncCommand config b
        = ⟨[str "merge", str "upstream", str "upstream/" ++ b],
            str "merging upstream"⟩) := by
  refine ⟨fun c₁ c₂ b₁ b₂ hc hb => by rw [hc, hb], ?_, ?_, ?_, ?_⟩ <;>
    intro config b hr hb <;> simp [getSyncCommand, hr, hb]

/-- Witness for C3: the rebase-with-branch case at branch `"main"`. -/
theorem getSyncCommand_cases_witness :
    getSyncCommand
        { UpstreamBranch := [], OriginBranch := [], Rebase := true,
          ForcePush := false, DryRun := false } (str "main")
      = ⟨[str "rebase", str "upstream", str "upstream/" ++ str "main"],
          str "rebasing onto upstream"⟩ :=
  getSyncCommand_cases.2.2.1 _ (str "main") rfl (by decide)

/-- C8: `validateFork` errors exactly when the fork flag is false, the error
message contains the repository full name, and it succeeds whenever the flag
is true (it is a pure function of `info`). -/
theorem validateFork_spec (info : RepoInfo) :
    ((validateFork info).isSome ↔ info.Fork = false)
    ∧ (∀ msg, validateFork info = some msg →
        goContains info.FullName msg = true)
    ∧ (info.Fork = true → validateFork info = none) := by
  refine ⟨?_, ?_, ?_⟩
  · cases h : info.Fork <;> simp [validateFork, h]
  · intro msg hmsg
    cases h : info.Fork with
    | true => simp [validateFork, h] at hmsg
    | false =>
      simp only [validateFork, h, Bool.not_false, if_true,
        Option.some.injEq] at hmsg
      subst hmsg
      rw [List.append_assoc]
      exact goContains_append_self _ _ _
  · intro h
    simp [validateFork, h]

/-- Witness for C8: a non-fork named `user/repo`. -/
theorem validateFork_spec_witness :
    validateFork
        { FullName := str "user/repo", Fork := false,
          ParentFullName := [], ParentCloneURL := [] }
      = some (str "repository user/repo isn\x27t a fork")
    ∧ goContains (str "user/repo")
        (str "repository user/repo isn\x27t a fork") = true :=
  ⟨by decide,
    (validateFork_spec
      { FullName := str "user/repo", Fork := false,
        ParentFullName := [], ParentCloneURL := [] }).2.1
      (str "repository user/repo isn\x27t a fork") (by decide)⟩

/-- C1 counterexample: on `"git@github.com:owner/"` the owner/repository
split yields the two parts `["owner", ""]` — fewer than two NON-EMPTY parts —
yet parsing succeeds with an empty repository name instead of failing with
`malformedURL`, refuting both halves of the claim. -/
theorem parse_empty_repo_cex :
    partsOf (str "git@github.com:owner/") = .parts [str "owner", []]
    ∧ parseRemoteURL (str "git@github.com:owner/")
        = .ok (str "owner") [] := by decide

/-- C1 (amended): the code only counts parts, not non-empty parts: whenever
the owner/repository split yields fewer than two parts the parse fails with
`malformedURL` carrying the URL, and on success the split yielded at least
two parts (either of which may be empty). -/
theorem parse_parts_length_spec (url : Str) (ps : List Str)
    (h : partsOf url = .parts ps) :
    (ps.length < 2 → parseRemoteURL url = .err (.malformedURL url))
    ∧ (∀ o r, parseRemoteURL url = .ok o r → 2 ≤ ps.length) := by
  constructor
  · intro hlen
    simp [parseRemoteURL, h, partsToResult, hlen]
  · intro o r hok
    by_contra hlt
    rw [Nat.not_le] at hlt
    simp [parseRemoteURL, h, partsToResult, hlt] at hok

/-- Witness for C1 (amended): `"git@github.com:ownerrepo"` has no slash, so
the split yields the single part `["ownerrepo"]` and parsing fails with
`malformedURL`. -/
theorem parse_parts_length_spec_witness :
    partsOf (str "git@github.com:ownerrepo") = .parts [str "ownerrepo"]
    ∧ parseRemoteURL (str "git@github.com:ownerrepo")
        = .err (.malformedURL (str "git@github.com:ownerrepo")) :=
  ⟨by decide,
    (parse_parts_length_spec (str "git@github.com:ownerrepo")
      [str "ownerrepo"] (by decide)).1 (by decide)⟩

theorem partsToResult_ne_panicked (url : Str) (ps : List Str) :
    partsToResult url ps ≠ ParseResult.panicked := by
  by_cases h : ps.length < 2
  · simp [partsToResult, h]
  · rw [Nat.not_lt] at h
    obtain ⟨x, y, t, rfl⟩ := exists_cons_cons_of_two_le h
    have h2 : ¬ (t.length + 1 + 1 < 2) := by omega
    simp [partsToResult, h2]

theorem goSplitN2_of_contains {sub s : Str} (h : goContains sub s = true) :
    ∃ b a, goSplitN2 sub s = [b, a] := by
  rw [goContains, Option.isSome_iff_exists] at h
  obtain ⟨⟨b, a⟩, hq⟩ := h
  exact ⟨b, a, by simp [goSplitN2, hq]⟩

/-- C9: any URL that neither starts with `"git@github.com:"` nor contains
`"github.com/"` parses to the `unsupportedFormat` error carrying that URL,
and the parser never reaches a Go panic on any input (in particular the
`[1]` indexing after the HTTPS split is always in bounds). -/
theorem parse_urlshape_spec (url : Str) :
    (goStartsWith sshPre url = false → goContains hostSlash url = false →
      parseRemoteURL url = .err (.unsupportedFormat url))
    ∧ parseRemoteURL url ≠ ParseResult.panicked := by
  constructor
  · intro h1 h2
    simp [parseRemoteURL, partsOf, h1, h2]
  · by_cases h1 : goStartsWith sshPre url = true
    · simpa [parseRemoteURL, partsOf, h1] using
        partsToResult_ne_panicked url _
    · have h1f : goStartsWith sshPre url = false := by
        exact Bool.not_eq_true _ ▸ Bool.of_not_eq_true h1
      by_cases h2 : goContains hostSlash url = true
      · obtain ⟨b, a, hsplit⟩ := goSplitN2_of_contains h2
        simpa [parseRemoteURL, partsOf, h1f, h2, hsplit] using
          partsToResult_ne_panicked url _
      · have h2f : goContains hostSlash url = false := Bool.of_not_eq_true h2
        simp [parseRemoteURL, partsOf, h1f, h2f]

/-- Witness for C9: `"ftp://example.com/x"` matches neither shape. -/
theorem parse_urlshape_spec_witness :
    parseRemoteURL (str "ftp://example.com/x")
      = .err (.unsupportedFormat (str "ftp://example.com/x")) :=
  (parse_urlshape_spec (str "ftp://example.com/x")).1 (by decide) (by decide)

theorem partsOf_ssh_append (x : Str) :
    partsOf (sshPre ++ x) = .parts (goSplitN2 slash x) := by
  simp [partsOf, goStartsWith_self_append, goTrimStart_self_append]

theorem goFindSub_hostSlash_https (x : Str) :
    goFindSub hostSlash (httpsPre ++ x) = some (str "https://", x) := by
  have h3 : httpsPre ++ x = str "https://" ++ (hostSlash ++ x) := by
    rw [← List.append_assoc]
    rfl
  have h4 : hostSlash = 'g' :: str "ithub.com/" := rfl
  have hmem : ('g' : Char) ∉ str "https://" := by decide
  rw [h3, h4,
    goFindSub_append_of_notMem 'g' (str "ithub.com/") (str "https://")
      (('g' :: str "ithub.com/") ++ x) hmem,
    goFindSub_self_append]
  simp

theorem partsOf_https_append (x : Str) :
    partsOf (httpsPre ++ x) = .parts (goSplitN2 slash x) := by
  have hssh : goStartsWith sshPre (httpsPre ++ x) = false := by
    have h1 : sshPre = 'g' :: str "it@github.com:" := rfl
    have h2 : httpsPre ++ x = 'h' :: (str "ttps://github.com/" ++ x) := rfl
    rw [h1, h2]
    exact goStartsWith_cons_ne _ _ (by decide)
  have hfind := goFindSub_hostSlash_https x
  have hcont : goContains hostSlash (httpsPre ++ x) = true := by
    rw [goContains, hfind]
    rfl
  have hsplit : goSplitN2 hostSlash (httpsPre ++ x) = [str "https://", x] := by
    rw [goSplitN2, hfind]
  simp [partsOf, hssh, hcont, hsplit]

theorem goSplitN2_slash_cons (o r : Str) (ho : ('/' : Char) ∉ o) :
    goSplitN2 slash (o ++ '/' :: r) = [o, r] := by
  rw [goSplitN2, goFindSub_slash o r ho]

theorem partsToResult_pair (url o rr : Str) :
    partsToResult url [o, rr] = .ok o (goTrimSuffix dotGit rr) := by
  simp [partsToResult]

theorem parseRemoteURL_ssh (o rr : Str) (ho : ('/' : Char) ∉ o) :
    parseRemoteURL (sshPre ++ (o ++ '/' :: rr))
      = .ok o (goTrimSuffix dotGit rr) := by
  simp [parseRemoteURL, partsOf_ssh_append, goSplitN2_slash_cons o rr ho,
    partsToResult_pair]

theorem parseRemoteURL_https (o rr : Str) (ho : ('/' : Char) ∉ o) :
    parseRemoteURL (httpsPre ++ (o ++ '/' :: rr))
      = .ok o (goTrimSuffix dotGit rr) := by
  simp [parseRemoteURL, partsOf_https_append, goSplitN2_slash_cons o rr ho,
    partsToResult_pair]

/-- C7: for every owner (without `/`) and repository name (not itself ending
in `".git"`), both supported URL shapes parse to exactly that
`{owner, name}` pair, with or without the trailing `".git"` suffix — so the
suffixed and suffix-free variants agree. -/
theorem parse_dotGit_invariant (o r : Str) (ho : ('/' : Char) ∉ o)
    (hr : goEndsWith dotGit r = false) :
    parseRemoteURL (sshPre ++ o ++ slash ++ r ++ dotGit) = .ok o r
    ∧ parseRemoteURL (sshPre ++ o ++ slash ++ r) = .ok o r
    ∧ parseRemoteURL (httpsPre ++ o ++ slash ++ r ++ dotGit) = .ok o r
    ∧ parseRemoteURL (httpsPre ++ o ++ slash ++ r) = .ok o r := by
  have e1 : sshPre ++ o ++ slash ++ r ++ dotGit
      = sshPre ++ (o ++ '/' :: (r ++ dotGit)) := by
    simp [slash, List.append_assoc]
  have e2 : sshPre ++ o ++ slash ++ r = sshPre ++ (o ++ '/' :: r) := by
    simp [slash, List.append_assoc]
  have e3 : httpsPre ++ o ++ slash ++ r ++ dotGit
      = httpsPre ++ (o ++ '/' :: (r ++ dotGit)) := by
    simp [slash, List.append_assoc]
  have e4 : httpsPre ++ o ++ slash ++ r = httpsPre ++ (o ++ '/' :: r) := by
    simp [slash, List.append_assoc]
  refine ⟨?_, ?_, ?_, ?_⟩
  · rw [e1, parseRemoteURL_ssh o (r ++ dotGit) ho, goTrimSuffix_append_self]
  · rw [e2, parseRemoteURL_ssh o r ho, goTrimSuffix_of_not hr]
  · rw [e3, parseRemoteURL_https o (r ++ dotGit) ho, goTrimSuffix_append_self]
  · rw [e4, parseRemoteURL_https o r ho, goTrimSuffix_of_not hr]

/-- Witness for C7: owner `"owner"`, repository `"repo"`, SSH shape with the
`.git` suffix (`"git@github.com:owner/repo.git"`). -/
theorem parse_dotGit_invariant_witness :
    parseRemoteURL (sshPre ++ str "owner" ++ slash ++ str "repo" ++ dotGit)
      = .ok (str "owner") (str "repo") :=
  (parse_dotGit_invariant (str "owner") (str "repo")
    (by decide) (by decide)).1

/-- C10 counterexample: at the merge configuration with the NON-EMPTY branch
`"main"`, the dry-run projection announces `git merge upstream/main` while a
real run executes `git merge upstream upstream/main` — the two do not
coincide even for a non-empty branch, refuting the claimed equivalence
condition. -/
theorem dryRun_integration_cex :
    mergeMainConfig.UpstreamBranch ≠ []
    ∧ projectedIntegrationLine mergeMainConfig
        = str "git merge upstream/main"
    ∧ realIntegrationLine mergeMainConfig
        = str "git merge upstream upstream/main"
    ∧ projectedIntegrationLine mergeMainConfig
        ≠ realIntegrationLine mergeMainConfig := by decide

/-- C10 (amended): the dry-run projector prints the `upstream/<branch>`
qualifier unconditionally (even for the empty branch, where it prints a bare
`upstream/`), the real command builder omits the qualifier for an empty
branch and always passes `upstream` as a separate argument before the
optional qualifier, and consequently the projected integration command NEVER
coincides with the command the real run would execute. -/
theorem dryRun_integration_divergence (config : AppConfig) :
    dryIntegrationLine config
      = str "Would run: " ++ projectedIntegrationLine config
    ∧ projectedIntegrationLine config
      = str "git " ++ strategyVerb config ++ str " upstream/"
          ++ config.UpstreamBranch
    ∧ (getSyncCommand config []).Args = [strategyVerb config, str "upstream"]
    ∧ projectedIntegrationLine config ≠ realIntegrationLine config := by
  obtain ⟨ub, ob, rb, fp, dr⟩ := config
  refine ⟨?_, rfl, ?_, ?_⟩
  · cases rb <;> rfl
  · cases rb <;> rfl
  · cases rb with
    | false =>
      cases ub with
      | nil =>
        intro h
        have e1 : projectedIntegrationLine ⟨[], ob, false, fp, dr⟩
            = str "git merge upstream/" := rfl
        have e2 : realIntegrationLine ⟨[], ob, false, fp, dr⟩
            = str "git merge upstream" := rfl
        rw [e1, e2] at h
        exact absurd h (by decide)
      | cons c cs =>
        intro h
        have e1 : projectedIntegrationLine ⟨c :: cs, ob, false, fp, dr⟩
            = str "git merge upstream/" ++ (c :: cs) := rfl
        have e2 : realIntegrationLine ⟨c :: cs, ob, false, fp, dr⟩
            = str "git merge upstream upstream/" ++ (c :: cs) := rfl
        rw [e1, e2] at h
        exact absurd (List.append_cancel_right h) (by decide)
    | true =>
      cases ub with
      | nil =>
        intro h
        have e1 : projectedIntegrationLine ⟨[], ob, true, fp, dr⟩
            = str "git rebase upstream/" := rfl
        have e2 : realIntegrationLine ⟨[], ob, true, fp, dr⟩
            = str "git rebase upstream" := rfl
        rw [e1, e2] at h
        exact absurd h (by decide)
      | cons c cs =>
        intro h
        have e1 : projectedIntegrationLine ⟨c :: cs, ob, true, fp, dr⟩
            = str "git rebase upstream/" ++ (c :: cs) := rfl
        have e2 : realIntegrationLine ⟨c :: cs, ob, true, fp, dr⟩
            = str "git rebase upstream upstream/" ++ (c :: cs) := rfl
        rw [e1, e2] at h
        exact absurd (List.append_cancel_right h) (by decide)

/-- C4: with `dryRun` set, `main` issues no git command and no hosting-API
call, prints exactly the dry-run projection lines, and terminates
successfully (exit code 0) without running any other component. -/
theorem dryRun_short_circuit (config : AppConfig) (env : Env)
    (h : config.DryRun = true) :
    mainRun config env
      = ⟨[], 0, printDryRunLines config placeholderURL, 0, false⟩ := by
  simp [mainRun, h]

/-- Witness for C4: the scenario configuration with `dryRun` enabled. -/
theorem dryRun_short_circuit_witness :
    mainRun { mergeMainConfig with DryRun := true } okEnv
      = ⟨[], 0,
          printDryRunLines { mergeMainConfig with DryRun := true }
            placeholderURL, 0, false⟩ :=
  dryRun_short_circuit { mergeMainConfig with DryRun := true } okEnv rfl

/-- C2: for the configuration `{rebase:false, forcePush:false,
originBranch:"main", upstreamBranch:"main", dryRun:false}` against a fork,
the orchestrator issues (after the read-only `git remote get-url origin`
lookup that resolves the fork identity) exactly remote-add, fetch,
`merge upstream upstream/main`, `push origin HEAD:main`, in that order; each
later command is attempted only if every earlier one succeeded (a failure
truncates the trace right there), and the push arguments are in general
`"push"`, then `"-f"` exactly when forcePush is set, then `"origin"`, then
`"HEAD:<originBranch>"`. -/
theorem endToEnd_sequence (env : Env) (u o r g : Str) (info : RepoInfo)
    (hc : env.clientOk = true)
    (hurl : env.originUrl = .ok u)
    (hparse : parseRemoteURL u = .ok o r)
    (hinfo : env.repoLookup o r = .ok info)
    (hfork : info.Fork = true)
    (hbin : env.gitBin = .ok g) :
    (env.gitRun [str "remote", str "add", str "upstream",
        info.ParentCloneURL] = none →
      env.gitRun [str "fetch", str "upstream"] = none →
      env.gitRun [str "merge", str "upstream", str "upstream/main"] = none →
      env.gitRun [str "push", str "origin", str "HEAD:main"] = none →
      (mainRun mergeMainConfig env).gitCalls
        = [[str "remote", str "get-url", str "origin"],
           [str "remote", str "add", str "upstream", info.ParentCloneURL],
           [str "fetch", str "upstream"],
           [str "merge", str "upstream", str "upstream/main"],
           [str "push", str "origin", str "HEAD:main"]])
    ∧ (∀ e out,
      env.gitRun [str "remote", str "add", str "upstream",
        info.ParentCloneURL] = none →
      env.gitRun [str "fetch", str "upstream"] = some (e, out) →
      (mainRun mergeMainConfig env).gitCalls
        = [[str "remote", str "get-url", str "origin"],
           [str "remote", str "add", str "upstream", info.ParentCloneURL],
           [str "fetch", str "upstream"]])
    ∧ (∀ e out,
      env.gitRun [str "remote", str "add", str "upstream",
        info.ParentCloneURL] = none →
      env.gitRun [str "fetch", str "upstream"] = none →
      env.gitRun [str "merge", str "upstream", str "upstream/main"]
        = some (e, out) →
      (mainRun mergeMainConfig env).gitCalls
        = [[str "remote", str "get-url", str "origin"],
           [str "remote", str "add", str "upstream", info.ParentCloneURL],
           [str "fetch", str "upstream"],
           [str "merge", str "upstream", str "upstream/main"]])
    ∧ (∀ cfg : AppConfig, pushArgsOf cfg
        = [str "push"] ++ (if cfg.ForcePush then [str "-f"] else [])
          ++ [str "origin", str "HEAD:" ++ cfg.OriginBranch]) := by
  have hvf : validateFork info = none := by simp [validateFork, hfork]
  have hdry : mergeMainConfig.DryRun = false := rfl
  have hsyncArgs : getSyncCommand mergeMainConfig mergeMainConfig.UpstreamBranch
      = ⟨[str "merge", str "upstream", str "upstream/main"],
          str "merging upstream"⟩ := by decide
  have hpushc : pushCmd mergeMainConfig
      = ⟨[str "push", str "origin", str "HEAD:main"],
          str "pushing to origin/main"⟩ := by decide
  refine ⟨?_, ?_, ?_, fun _ => rfl⟩
  · intro h1 h2 h3 h4
    simp [mainRun, hdry, hc, GetOriginRepo, hurl, hparse, hinfo, hvf, hbin,
      stageAdd, stageFetch, stageSync, stagePush, runGitCommand,
      addUpstreamCmd, fetchCmd, fetchArgs, getUrlArgs, hsyncArgs, hpushc,
      h1, h2, h3, h4]
  · intro e out h1 h2
    simp [mainRun, hdry, hc, GetOriginRepo, hurl, hparse, hinfo, hvf, hbin,
      stageAdd, stageFetch, stageSync, stagePush, runGitCommand,
      addUpstreamCmd, fetchCmd, fetchArgs, getUrlArgs, hsyncArgs, hpushc,
      h1, h2]
  · intro e out h1 h2 h3
    simp [mainRun, hdry, hc, GetOriginRepo, hurl, hparse, hinfo, hvf, hbin,
      stageAdd, stageFetch, stageSync, stagePush, runGitCommand,
      addUpstreamCmd, fetchCmd, fetchArgs, getUrlArgs, hsyncArgs, hpushc,
      h1, h2, h3]

/-- Witness for C2: the all-success oracle `okEnv` on the fork
`owner/repo` with parent `up/stream`. -/
theorem endToEnd_sequence_witness :
    (mainRun mergeMainConfig okEnv).gitCalls
      = [[str "remote", str "get-url", str "origin"],
         [str "remote", str "add", str "upstream",
           str "https://github.com/up/stream.git"],
         [str "fetch", str "upstream"],
         [str "merge", str "upstream", str "upstream/main"],
         [str "push", str "origin", str "HEAD:main"]] :=
  (endToEnd_sequence okEnv (str "git@github.com:owner/repo.git")
    (str "owner") (str "repo") (str "/usr/bin/git") sampleInfo
    rfl rfl (by decide) rfl (by decide) rfl).1 rfl rfl rfl rfl

/-- C5: when the remote-add step fails and the wrapped error message contains
`"remote upstream already exists"`, the run proceeds to the fetch step (the
trace continues `get-url, add, fetch, ...`); when it fails with any other
message, the run stops immediately after the add attempt — fetch, integrate
and push are never issued. -/
theorem remoteAdd_already_exists (config : AppConfig) (env : Env)
    (u o r g e out : Str) (info : RepoInfo)
    (hdry : config.DryRun = false)
    (hc : env.clientOk = true)
    (hurl : env.originUrl = .ok u)
    (hparse : parseRemoteURL u = .ok o r)
    (hinfo : env.repoLookup o r = .ok info)
    (hfork : info.Fork = true)
    (hbin : env.gitBin = .ok g)
    (hfail : env.gitRun [str "remote", str "add", str "upstream",
        info.ParentCloneURL] = some (e, out)) :
    (goContains alreadyExistsText
        (wrapGitError (addUpstreamCmd info.ParentCloneURL) e out) = true →
      ∃ rest, (mainRun config env).gitCalls
        = [[str "remote", str "get-url", str "origin"],
           [str "remote", str "add", str "upstream", info.ParentCloneURL],
           [str "fetch", str "upstream"]] ++ rest)
    ∧ (goContains alreadyExistsText
        (wrapGitError (addUpstreamCmd info.ParentCloneURL) e out) = false →
      (mainRun config env).gitCalls
        = [[str "remote", str "get-url", str "origin"],
           [str "remote", str "add", str "upstream",
             info.ParentCloneURL]]) := by
  have hvf : validateFork info = none := by simp [validateFork, hfork]
  have hmain : mainRun config env
      = stageAdd config env info.ParentCloneURL
          [[str "remote", str "get-url", str "origin"]]
          [str "✓ Detected fork: " ++ info.FullName ++ str " (parent: "
            ++ info.ParentFullName ++ str ")"] := by
    simp [mainRun, hdry, hc, GetOriginRepo, hurl, hparse, hinfo, hvf, hbin,
      getUrlArgs]
  constructor
  · intro hcont
    simp only [addUpstreamCmd] at hcont
    cases hf : env.gitRun [str "fetch", str "upstream"] with
    | some p =>
      obtain ⟨fe, fo⟩ := p
      refine ⟨[], ?_⟩
      simp [hmain, stageAdd, stageFetch, runGitCommand, addUpstreamCmd,
        fetchCmd, fetchArgs, hfail, hcont, hf]
    | none =>
      cases hs : env.gitRun
          (getSyncCommand config config.UpstreamBranch).Args with
      | some p =>
        obtain ⟨se, so⟩ := p
        refine ⟨[(getSyncCommand config config.UpstreamBranch).Args], ?_⟩
        simp [hmain, stageAdd, stageFetch, stageSync, runGitCommand,
          addUpstreamCmd, fetchCmd, fetchArgs, hfail, hcont, hf, hs]
      | none =>
        cases hp : env.gitRun (pushCmd config).Args with
        | some p =>
          obtain ⟨pe, po⟩ := p
          refine ⟨[(getSyncCommand config config.UpstreamBranch).Args,
            (pushCmd config).Args], ?_⟩
          simp [hmain, stageAdd, stageFetch, stageSync, stagePush,
            runGitCommand, addUpstreamCmd, fetchCmd, fetchArgs, hfail,
            hcont, hf, hs, hp]
        | none =>
          refine ⟨[(getSyncCommand config config.UpstreamBranch).Args,
            (pushCmd config).Args], ?_⟩
          simp [hmain, stageAdd, stageFetch, stageSync, stagePush,
            runGitCommand, addUpstreamCmd, fetchCmd, fetchArgs, hfail,
            hcont, hf, hs, hp]
  · intro hcont
    simp only [addUpstreamCmd] at hcont
    simp [hmain, stageAdd, runGitCommand, addUpstreamCmd, hfail, hcont]

/-- Witness for C5: the oracle `addFailEnv`, whose remote-add fails with
output containing `"remote upstream already exists"`; the run proceeds to
fetch (and, everything else succeeding, all the way to the push). -/
theorem remoteAdd_already_exists_witness :
    ∃ rest, (mainRun mergeMainConfig addFailEnv).gitCalls
      = [[str "remote", str "get-url", str "origin"],
         [str "remote", str "add", str "upstream",
           str "https://github.com/up/stream.git"],
         [str "fetch", str "upstream"]] ++ rest :=
  (remoteAdd_already_exists mergeMainConfig addFailEnv
    (str "git@github.com:owner/repo.git") (str "owner") (str "repo")
    (str "/usr/bin/git") (str "exit status 3")
    (str "error: remote upstream already exists") sampleInfo
    rfl rfl rfl (by decide) rfl (by decide) rfl (by decide)).1 (by decide)

/-- C6: for every configuration, when the integration (merge/rebase) command
fails, the push command is never issued (the git trace ends with the
integration attempt) and the printed output contains the abort hint matching
the active strategy: `git rebase --abort` under rebase, `git merge --abort`
otherwise. -/
theorem integration_failure_no_push (config : AppConfig) (env : Env)
    (u o r g e out : Str) (info : RepoInfo)
    (hdry : config.DryRun = false)
    (hc : env.clientOk = true)
    (hurl : env.originUrl = .ok u)
    (hparse : parseRemoteURL u = .ok o r)
    (hinfo : env.repoLookup o r = .ok info)
    (hfork : info.Fork = true)
    (hbin : env.gitBin = .ok g)
    (hadd : env.gitRun [str "remote", str "add", str "upstream",
        info.ParentCloneURL] = none)
    (hfetch : env.gitRun [str "fetch", str "upstream"] = none)
    (hsync : env.gitRun (getSyncCommand config config.UpstreamBranch).Args
        = some (e, out)) :
    (mainRun config env).gitCalls
      = [[str "remote", str "get-url", str "origin"],
         [str "remote", str "add", str "upstream", info.ParentCloneURL],
         [str "fetch", str "upstream"],
         (getSyncCommand config config.UpstreamBranch).Args]
    ∧ abortHintLine config ∈ (mainRun config env).lines
    ∧ (config.Rebase = true →
        abortHintLine config = str "To abort the rebase, run: git rebase --abort")
    ∧ (config.Rebase = false →
        abortHintLine config = str "To abort the merge, run: git merge --abort") := by
  have hvf : validateFork info = none := by simp [validateFork, hfork]
  have hmain : mainRun config env
      = stageAdd config env info.ParentCloneURL
          [[str "remote", str "get-url", str "origin"]]
          [str "✓ Detected fork: " ++ info.FullName ++ str " (parent: "
            ++ info.ParentFullName ++ str ")"] := by
    simp [mainRun, hdry, hc, GetOriginRepo, hurl, hparse, hinfo, hvf, hbin,
      getUrlArgs]
  refine ⟨?_, ?_, ?_, ?_⟩
  · simp [hmain, stageAdd, stageFetch, stageSync, runGitCommand,
      addUpstreamCmd, fetchCmd, fetchArgs, hadd, hfetch, hsync]
  · simp [hmain, stageAdd, stageFetch, stageSync, runGitCommand,
      addUpstreamCmd, fetchCmd, fetchArgs, hadd, hfetch, hsync]
  · intro h
    simp [abortHintLine, h]
  · intro h
    simp [abortHintLine, h]

/-- Witness for C6: the oracle `syncFailEnv`, whose
`merge upstream upstream/main` fails with a conflict; the trace stops at the
merge and the merge abort hint is printed. -/
theorem integration_failure_no_push_witness :
    (mainRun mergeMainConfig syncFailEnv).gitCalls
      = [[str "remote", str "get-url", str "origin"],
         [str "remote", str "add", str "upstream",
           str "https://github.com/up/stream.git"],
         [str "fetch", str "upstream"],
         [str "merge", str "upstream", str "upstream/main"]]
    ∧ abortHintLine mergeMainConfig ∈ (mainRun mergeMainConfig syncFailEnv).lines := by
  have h := integration_failure_no_push mergeMainConfig syncFailEnv
    (str "git@github.com:owner/repo.git") (str "owner") (str "repo")
    (str "/usr/bin/git") (str "exit status 1")
    (str "CONFLICT (content): Merge conflict") sampleInfo
    rfl rfl rfl (by decide) rfl (by decide) rfl (by decide) (by decide)
    (by decide)
  exact ⟨h.1, h.2.1⟩
